import Mathlib

/-!
Verification of the crop_viz synthetic-data pipeline.

This file gives a shallow embedding, in Lean 4, of the data-generation
pipeline of `scripts/data_gen.py` and of the trend projector of
`scripts/viz.py`, and settles a list of claims about them.

Modelling conventions:

* Machine floats are modelled by `ℚ`.  `round(x, 2)` is modelled by
  `round2` (round half up to two decimal digits); no claim below depends
  on the tie-breaking rule of the rounding, only on monotonicity and on
  the value of `round2` at non-tie points.
* The NumPy global PRNG (seeded once with `np.random.seed(42)`) is
  modelled by an abstract stream `Rng`: `frac k` is the `k`-th unit
  uniform sample drawn from the stream and `gauss k` the `k`-th standard
  normal sample.  Every draw site consumes one stream index, and the
  single counter is threaded through the whole pipeline in program
  order, reflecting that all generators share one seeded source in a
  fixed call order.  `np.random.uniform(lo, hi)` returns
  `lo + u * (hi - lo)` with `u` a unit uniform sample in `[0, 1)`
  (NumPy documents the half-open interval `[lo, hi)`);
  `np.random.normal(70, 10)` returns `70 + 10 * g` with `g` standard
  normal (unbounded); `np.random.choice` with probabilities
  `[0.3, 0.3, 0.4]` is modelled by inverse-CDF selection on a unit
  uniform sample.
* A pandas `DataFrame` built row by row is a `List` of row structures;
  boolean-mask filtering is `List.filter` (order preserving), and
  `.values[0]` on an empty selection raises `IndexError`, modelled by
  `Option` (`none` = the raised error).
-/

/-- The abstract random stream behind `np.random` after `np.random.seed(42)`.
`frac k` is the `k`-th unit uniform variate, `gauss k` the `k`-th standard
normal variate. -/
structure Rng where
  frac : Nat → ℚ
  gauss : Nat → ℚ

/-- Well-formedness of the stream: unit uniform samples lie in `[0, 1)`,
as NumPy documents for `random_sample`. -/
def Rng.Ok (rng : Rng) : Prop := ∀ k, 0 ≤ rng.frac k ∧ rng.frac k < 1

/-- `np.random.uniform(lo, hi)` at stream position `k`:
`lo + u * (hi - lo)` with `u` the unit sample. -/
def uniformAt (rng : Rng) (k : Nat) (lo hi : ℚ) : ℚ :=
  lo + rng.frac k * (hi - lo)

/-- `np.random.normal(loc, scale)` at stream position `k`. -/
def normalAt (rng : Rng) (k : Nat) (loc scale : ℚ) : ℚ :=
  loc + scale * rng.gauss k

/-- `np.random.choice(['antagonism', 'stimulation', 'none'], p=[0.3, 0.3, 0.4])`,
by inverse CDF on the unit sample. -/
def choice3 (u : ℚ) : String :=
  if u < 3/10 then "antagonism" else if u < 6/10 then "stimulation" else "none"

/-- `round(x, 2)`: round to two decimal digits (half up; no claim depends
on the tie rule). -/
def round2 (x : ℚ) : ℚ := (⌊x * 100 + 1/2⌋ : ℤ) / 100

/-- Python's `enumerate(xs, i)`. -/
def enumFrom (i : Nat) : List α → List (Nat × α)
  | [] => []
  | x :: xs => (i, x) :: enumFrom (i + 1) xs

/-- `np.clip(x, lo, hi)`. -/
def clip (x lo hi : ℚ) : ℚ := min (max x lo) hi

/-- `nutrients = ['N', 'P', 'K', 'Ca', 'Mg', 'Fe', 'Zn', 'Cu', 'Mn', 'B', 'Mo']` -/
def nutrients : List String :=
  ["N", "P", "K", "Ca", "Mg", "Fe", "Zn", "Cu", "Mn", "B", "Mo"]

/-- `regions = ['North', 'South', 'East', 'West', 'Central']` -/
def regions : List String := ["North", "South", "East", "West", "Central"]

/-- The `region_climate` dictionary.  It is only ever applied to members of
`regions`; the catch-all branch models the fact that no other key is looked
up. -/
def regionClimate (r : String) : String :=
  if r = "North" then "Cold"
  else if r = "South" then "Hot"
  else if r = "East" then "Temperate"
  else if r = "West" then "Dry"
  else if r = "Central" then "Temperate"
  else ""

/-- `years = np.arange(2015, 2026)` -/
def years : List ℤ := (List.range 11).map (fun i => 2015 + (i : ℤ))

/-- `crops = ['Wheat', 'Corn', 'Soybean', 'Rice', 'Barley']` -/
def crops : List String := ["Wheat", "Corn", "Soybean", "Rice", "Barley"]

/-- One edge of the nutrient-interaction table
(columns `source_nutrient, target_nutrient, effect_type, weight`). -/
structure NutrientEdge where
  source_nutrient : String
  target_nutrient : String
  effect_type : String
  weight : ℚ
  deriving DecidableEq, Repr

/-- One row of the soil-sample table (columns
`region, climate_zone, year, <nutrients>, sustainability_score, soil_quality`);
`conc` holds the eleven per-nutrient concentration values in vocabulary
order. -/
structure SoilRow where
  region : String
  climate_zone : String
  year : ℤ
  conc : List ℚ
  sustainability_score : ℚ
  soil_quality : String
  deriving DecidableEq, Repr

/-- One row of the crop-yield table (columns `region, climate_zone, year,
crop_type, yield_kg_per_hectare, soil_sustainability_score, crop_health`). -/
structure CropRow where
  region : String
  climate_zone : String
  year : ℤ
  crop_type : String
  yield_kg_per_hectare : ℚ
  soil_sustainability_score : ℚ
  crop_health : String
  deriving DecidableEq, Repr

/-- The cascaded-threshold classification of a sustainability score
(`data_gen.py` lines 44–49). -/
def soilQuality (score : ℚ) : String :=
  if score < 60 then "Low" else if score < 80 then "Medium" else "High"

/-- The cascaded-threshold classification of a yield value
(`data_gen.py` lines 66–71). -/
def cropHealth (yieldKg : ℚ) : String :=
  if yieldKg < 3500 then "Poor" else if yieldKg < 6000 then "Moderate" else "Excellent"

/-- The ordered-pair iteration domain of the interaction loop:
`for source in nutrients: for target in nutrients:` (diagonal included in the
iteration, skipped inside the loop body like in the script). -/
def nnPairs : List (String × String) :=
  nutrients.flatMap (fun s => nutrients.map (fun t => (s, t)))

/-- The nutrient-interaction generation loop (`data_gen.py` lines 26–32):
for every ordered pair, draw an effect; when it is not `"none"`, draw and
round a weight from `uniform(0.1, 1.0)` and append an edge.  The `Nat`
argument is the position in the shared random stream; the result carries
the stream position after the loop. -/
def genEdges (rng : Rng) : List (String × String) → Nat → List NutrientEdge × Nat
  | [], k => ([], k)
  | (s, t) :: ps, k =>
    if s = t then genEdges rng ps k
    else
      let effect := choice3 (rng.frac k)
      if effect = "none" then genEdges rng ps (k + 1)
      else
        let w := round2 (uniformAt rng (k + 1) (1/10) 1)
        let rest := genEdges rng ps (k + 2)
        (⟨s, t, effect, w⟩ :: rest.1, rest.2)

/-- The `(year, region)` iteration domain shared by the soil loop
(lines 40–41) and the crop loop (lines 61–62): year ascending outer,
region in declaration order inner. -/
def yrPairs : List (ℤ × String) :=
  years.flatMap (fun y => regions.map (fun r => (y, r)))

/-- The soil-sample generation loop (`data_gen.py` lines 40–51): per
`(year, region)`, eleven concentration draws `uniform(10, 100)` (one
stream value each), one `normal(70, 10)` draw clipped to `[0, 100]` and
rounded, and the quality classification. -/
def genSoil (rng : Rng) : List (ℤ × String) → Nat → List SoilRow × Nat
  | [], k => ([], k)
  | (y, r) :: ps, k =>
    let conc := (List.range nutrients.length).map (fun j => uniformAt rng (k + j) 10 100)
    let score := round2 (clip (normalAt rng (k + nutrients.length) 70 10) 0 100)
    let row : SoilRow :=
      ⟨r, regionClimate r, y, conc, score, soilQuality score⟩
    let rest := genSoil rng ps (k + nutrients.length + 1)
    (row :: rest.1, rest.2)

/-- The per-record soil lookup (`data_gen.py` line 63):
`df_soil[(df_soil['region'] == region) & (df_soil['year'] == year)]['sustainability_score'].values[0]`.
Boolean-mask filtering keeps row order; `.values[0]` raises `IndexError`
on an empty selection, modelled by `none`. -/
def lookupScore (soil : List SoilRow) (r : String) (y : ℤ) : Option ℚ :=
  ((soil.filter (fun s => s.region = r ∧ s.year = y)).map
    (fun s => s.sustainability_score)).head?

/-- The innermost crop loop (`data_gen.py` lines 64–75) for one
`(year, region)` with looked-up score `sc`: one `uniform(2000, 8000)` draw
per crop, rounded, classified. -/
def genCropRows (rng : Rng) (r : String) (y : ℤ) (sc : ℚ) (k : Nat) : List CropRow :=
  (enumFrom 0 crops).map (fun p =>
    let yld := round2 (uniformAt rng (k + p.1) 2000 8000)
    ⟨r, regionClimate r, y, p.2, yld, sc, cropHealth yld⟩)

/-- The crop-yield generation loop (`data_gen.py` lines 61–75).  A failed
lookup (`IndexError` from `.values[0]`) aborts the run: `none`. -/
def genCrops (rng : Rng) (soil : List SoilRow) :
    List (ℤ × String) → Nat → Option (List CropRow × Nat)
  | [], k => some ([], k)
  | (y, r) :: ps, k =>
    match lookupScore soil r y with
    | Option.none => Option.none
    | some sc =>
      (genCrops rng soil ps (k + crops.length)).map
        (fun rest => (genCropRows rng r y sc k ++ rest.1, rest.2))

/-- Stage 1 of the pipeline: the nutrient-interaction table and the stream
position after it. -/
def interactionsResult (rng : Rng) : List NutrientEdge × Nat :=
  genEdges rng nnPairs 0

/-- Stage 2: the soil-sample table, consuming the stream where stage 1
left it. -/
def soilResult (rng : Rng) : List SoilRow × Nat :=
  genSoil rng yrPairs (interactionsResult rng).2

/-- Stage 3: the crop-yield table, consuming the stream where stage 2
left it and joining against stage 2's output. -/
def cropsResult (rng : Rng) : Option (List CropRow × Nat) :=
  genCrops rng (soilResult rng).1 yrPairs (soilResult rng).2

/-- The generated soil-sample table. -/
def soilTable (rng : Rng) : List SoilRow := (soilResult rng).1

/-- The generated crop-yield table (empty in the unreachable case where
the join failed; `cropsResult_isSome` below shows it never does). -/
def cropTable (rng : Rng) : List CropRow :=
  ((cropsResult rng).map Prod.fst).getD []

/-- The whole generation run as one function of the random stream: the
three tables produced by `data_gen.py`. -/
def pipeline (rng : Rng) :
    List NutrientEdge × List SoilRow × Option (List CropRow) :=
  ((interactionsResult rng).1, soilTable rng, (cropsResult rng).map Prod.fst)

/-- The all-zero stream: every unit sample is `0`, every normal sample is
`0`.  A legitimate concrete instance of `Rng`. -/
def rng0 : Rng := ⟨fun _ => 0, fun _ => 0⟩

/-!
Section: The trend projector of `scripts/viz.py`

`viz.py` loads `soil_samples.csv` into `df_soil` and builds `forecast_df`
by appending, per region, three projected rows.  A row of the forecast
frame has the soil-sample schema, but the projected rows carry `np.nan`
in every nutrient column and `None` in `soil_quality`; both markers are
modelled by `Option.none` (a historical row carries `some` everywhere).
-/

/-- A row of `forecast_df`: the `soil_samples` schema, with the nutrient
columns and the quality column optional so that the `np.nan` / `None`
markers of projected rows are representable. -/
structure FRow where
  region : String
  climate_zone : String
  year : ℤ
  conc : List (Option ℚ)
  sustainability_score : ℚ
  soil_quality : Option String
  deriving DecidableEq, Repr

/-- Reading a generated soil row back from `soil_samples.csv`: every
nutrient and quality field is present. -/
def SoilRow.toF (s : SoilRow) : FRow :=
  ⟨s.region, s.climate_zone, s.year, s.conc.map some,
    s.sustainability_score, some s.soil_quality⟩

/-- `projection_years = [2026, 2027, 2028]` (`viz.py` line 22). -/
def projectionYears : List ℤ := [2026, 2027, 2028]

/-- Helper for `uniqueVals`: keep the elements not seen yet, in order,
remembering the ones already kept. -/
def uniqueAux (seen : List String) : List String → List String
  | [] => []
  | x :: xs => if x ∈ seen then uniqueAux seen xs else x :: uniqueAux (x :: seen) xs

/-- `pandas.Series.unique()`: the distinct values in first-occurrence
order. -/
def uniqueVals (l : List String) : List String := uniqueAux [] l

/-- The slope `np.polyfit(xs, ys, 1)[0]`: the first-degree least-squares
coefficient, in closed form
`(n·Σxy − Σx·Σy) / (n·Σx² − (Σx)²)`. -/
def polyfitSlope (xs ys : List ℚ) : ℚ :=
  let n : ℚ := xs.length
  let sx := xs.sum
  let sy := ys.sum
  let sxy := ((xs.zip ys).map (fun p => p.1 * p.2)).sum
  let sxx := (xs.map (fun x => x * x)).sum
  (n * sxy - sx * sy) / (n * sxx - sx * sx)

/-- The rows of the current frame belonging to one region
(`sub = forecast_df[forecast_df['region'] == region]`, `viz.py` line 24). -/
def subRegion (df : List FRow) (r : String) : List FRow :=
  df.filter (fun row => row.region = r)

/-- One iteration of the forecast loop body for region `r` (`viz.py`
lines 24–36): fit the slope on `sub`, take `sub.iloc[-1]`, and emit one
row per projection year with score `last_value + i * slope`, `np.nan`
nutrients and `None` quality.  `sub.iloc[-1]` raises on an empty `sub`;
that case cannot arise because `r` is drawn from the frame's own region
column, and is mapped to no emitted rows here. -/
def projectRegion (df : List FRow) (r : String) : List FRow :=
  let sub := subRegion df r
  match sub.getLast? with
  | Option.none => []
  | some lastRow =>
    let slope := polyfitSlope (sub.map (fun row => (row.year : ℚ)))
      (sub.map (fun row => row.sustainability_score))
    (enumFrom 1 projectionYears).map (fun p =>
      ⟨r, lastRow.climate_zone, p.2, nutrients.map (fun _ => Option.none),
        lastRow.sustainability_score + (p.1 : ℚ) * slope, Option.none⟩)

/-- The forecast loop (`viz.py` lines 23–36): iterate over the regions of
the original frame, each time appending the projected rows to the growing
frame. -/
def forecastLoop (df : List FRow) : List String → List FRow
  | [] => df
  | r :: rs => forecastLoop (df ++ projectRegion df r) rs

/-- `forecast_df` after the loop: `forecast_df['region'].unique()` is
evaluated on the original frame when the loop starts. -/
def forecastDf (df : List FRow) : List FRow :=
  forecastLoop df (uniqueVals (df.map (fun row => row.region)))

/-- The forecast frame built by `viz.py` from the generated soil table. -/
def pipelineForecast (rng : Rng) : List FRow :=
  forecastDf ((soilTable rng).map SoilRow.toF)

/-!
Section: The output-commit model of `data_gen.py`

The script is a straight line of six effectful phases: build the
interaction table, write `nutrient_interactions.csv` (line 34), build the
soil table, write `soil_samples.csv` (line 55), build the crop table,
write `crop_yields.csv` (line 80).  An exception anywhere (a failed
lookup, an I/O error on a write) aborts the process at that point, so the
observable effect of a failed run is the prefix of phases completed
before the failure.  `committedAfter n` is the set of output files on
disk after the first `n` phases. -/
inductive Phase where
  | buildInteractions
  | writeInteractions
  | buildSoil
  | writeSoil
  | buildCrops
  | writeCrops
  deriving DecidableEq, Repr

/-- The names of the three output tables. -/
inductive TableFile where
  | interactions
  | soilSamples
  | cropYields
  deriving DecidableEq, Repr

/-- The phases of `data_gen.py` in program order. -/
def scriptPhases : List Phase :=
  [Phase.buildInteractions, Phase.writeInteractions,
   Phase.buildSoil, Phase.writeSoil,
   Phase.buildCrops, Phase.writeCrops]

/-- The file a phase commits, if it is a write phase. -/
def phaseWrite : Phase → Option TableFile
  | Phase.writeInteractions => some TableFile.interactions
  | Phase.writeSoil => some TableFile.soilSamples
  | Phase.writeCrops => some TableFile.cropYields
  | _ => Option.none

/-- The output files committed to disk when the run dies after its first
`n` phases. -/
def committedAfter (n : Nat) : List TableFile :=
  (scriptPhases.take n).filterMap phaseWrite

/-- The ordered pair a nutrient edge is keyed by. -/
def edgeKey (e : NutrientEdge) : String × String :=
  (e.source_nutrient, e.target_nutrient)

/-- The `(year, region)` key of a soil sample. -/
def soilKey (s : SoilRow) : ℤ × String := (s.year, s.region)

/-- The forecast scenario of the spec: one region with historical scores
`[70, 72, 74]` for years `[2023, 2024, 2025]`. -/
def demoDf : List FRow :=
  [⟨"R", "Mild", 2023, [], 70, some "Medium"⟩,
   ⟨"R", "Mild", 2024, [], 72, some "Medium"⟩,
   ⟨"R", "Mild", 2025, [], 74, some "Medium"⟩]

/-- The last historical row of `demoDf`. -/
def demoLast : FRow := ⟨"R", "Mild", 2025, [], 74, some "Medium"⟩

/-- The first projected row of the scenario frame `demoDf`. -/
def demoProj2026 : FRow :=
  ⟨"R", "Mild", 2026, nutrients.map (fun _ => Option.none), 76, Option.none⟩

/-- The first soil row generated from the all-zero stream. -/
def s0 : SoilRow :=
  ⟨"North", "Cold", 2015, [10, 10, 10, 10, 10, 10, 10, 10, 10, 10, 10], 70,
    "Medium"⟩

/-- The first crop row generated from the all-zero stream. -/
def c0 : CropRow := ⟨"North", "Cold", 2015, "Wheat", 2000, 70, "Poor"⟩

/-- The first projected row of the forecast frame built from the all-zero
stream's soil table. -/
def northProj2026 : FRow :=
  ⟨"North", "Cold", 2026, nutrients.map (fun _ => Option.none), 70,
    Option.none⟩

/-!
Section: Arithmetic helper lemmas
-/

theorem round2_mono {x y : ℚ} (h : x ≤ y) : round2 x ≤ round2 y := by
  have hf : (⌊x * 100 + 1/2⌋ : ℤ) ≤ ⌊y * 100 + 1/2⌋ :=
    Int.floor_le_floor (by linarith)
  have hq : ((⌊x * 100 + 1/2⌋ : ℤ) : ℚ) ≤ ((⌊y * 100 + 1/2⌋ : ℤ) : ℚ) :=
    Int.cast_le.mpr hf
  unfold round2
  linarith

theorem round2_zero : round2 0 = 0 := by with_unfolding_all decide

theorem round2_hundred : round2 100 = 100 := by with_unfolding_all decide

theorem round2_tenth : round2 (1/10) = 1/10 := by with_unfolding_all decide

theorem round2_one : round2 1 = 1 := by with_unfolding_all decide

theorem clip_bounds {x lo hi : ℚ} (h : lo ≤ hi) :
    lo ≤ clip x lo hi ∧ clip x lo hi ≤ hi :=
  ⟨le_min (le_max_right x lo) h, min_le_right _ _⟩

/-!
Section: The interaction-graph generator
-/

theorem genEdges_key_sublist (rng : Rng) :
    ∀ (ps : List (String × String)) (k : Nat),
      List.Sublist ((genEdges rng ps k).1.map edgeKey) ps
  | [], k => by simp [genEdges]
  | (s, t) :: ps, k => by
    by_cases hst : s = t
    · simp only [genEdges, if_pos hst]
      exact (genEdges_key_sublist rng ps k).cons (s, t)
    · simp only [genEdges, if_neg hst]
      by_cases heff : choice3 (rng.frac k) = "none"
      · simp only [if_pos heff]
        exact (genEdges_key_sublist rng ps (k + 1)).cons (s, t)
      · simp only [if_neg heff, List.map_cons, edgeKey]
        exact (genEdges_key_sublist rng ps (k + 2)).cons₂ (s, t)

theorem genEdges_mem (rng : Rng) (hok : rng.Ok) :
    ∀ (ps : List (String × String)) (k : Nat) (e : NutrientEdge),
      e ∈ (genEdges rng ps k).1 →
      e.source_nutrient ≠ e.target_nutrient ∧ e.effect_type ≠ "none" ∧
        1/10 ≤ e.weight ∧ e.weight ≤ 1
  | [], k, e, he => by simp [genEdges] at he
  | (s, t) :: ps, k, e, he => by
    by_cases hst : s = t
    · rw [genEdges, if_pos hst] at he
      exact genEdges_mem rng hok ps k e he
    · rw [genEdges, if_neg hst] at he
      by_cases heff : choice3 (rng.frac k) = "none"
      · rw [if_pos heff] at he
        exact genEdges_mem rng hok ps (k + 1) e he
      · rw [if_neg heff] at he
        rcases List.mem_cons.mp he with rfl | htl
        · refine ⟨hst, heff, ?_, ?_⟩
          · have h1 : (1/10 : ℚ) ≤ uniformAt rng (k + 1) (1/10) 1 := by
              have := (hok (k + 1)).1
              unfold uniformAt
              nlinarith
            calc (1/10 : ℚ) = round2 (1/10) := round2_tenth.symm
              _ ≤ _ := round2_mono h1
          · have h2 : uniformAt rng (k + 1) (1/10) 1 ≤ 1 := by
              have := (hok (k + 1)).2
              unfold uniformAt
              nlinarith
            calc round2 (uniformAt rng (k + 1) (1/10) 1)
                ≤ round2 1 := round2_mono h2
              _ = 1 := round2_one
        · exact genEdges_mem rng hok ps (k + 2) e htl

theorem nnPairs_nodup : nnPairs.Nodup := by decide

/-!
Section: The regional time-series generator
-/

theorem genSoil_keys (rng : Rng) :
    ∀ (ps : List (ℤ × String)) (k : Nat), ((genSoil rng ps k).1.map soilKey) = ps
  | [], k => by simp [genSoil]
  | (y, r) :: ps, k => by
    simp [genSoil, soilKey, genSoil_keys rng ps (k + nutrients.length + 1)]

theorem genSoil_mem (rng : Rng) :
    ∀ (ps : List (ℤ × String)) (k : Nat) (s : SoilRow), s ∈ (genSoil rng ps k).1 →
      (0 ≤ s.sustainability_score ∧ s.sustainability_score ≤ 100) ∧
      s.soil_quality = soilQuality s.sustainability_score ∧
      s.climate_zone = regionClimate s.region ∧
      s.conc.length = nutrients.length
  | [], k, s, hs => by simp [genSoil] at hs
  | (y, r) :: ps, k, s, hs => by
    rw [genSoil] at hs
    rcases List.mem_cons.mp hs with rfl | htl
    · have hb := @clip_bounds (normalAt rng (k + nutrients.length) 70 10)
        0 100 (by norm_num)
      refine ⟨⟨?_, ?_⟩, rfl, rfl, by simp⟩
      · calc (0:ℚ) = round2 0 := round2_zero.symm
          _ ≤ _ := round2_mono hb.1
      · calc round2 (clip (normalAt rng (k + nutrients.length) 70 10) 0 100)
            ≤ round2 100 := round2_mono hb.2
          _ = 100 := round2_hundred
    · exact genSoil_mem rng ps (k + nutrients.length + 1) s htl

theorem yrPairs_nodup : yrPairs.Nodup := by with_unfolding_all decide

theorem soilTable_keys (rng : Rng) : ((soilTable rng).map soilKey) = yrPairs :=
  genSoil_keys rng yrPairs (interactionsResult rng).2

theorem soilTable_keys_nodup (rng : Rng) : ((soilTable rng).map soilKey).Nodup := by
  rw [soilTable_keys]
  exact yrPairs_nodup

/-!
Section: The soil lookup and the yield-table generator
-/

theorem lookupScore_none_iff (soil : List SoilRow) (r : String) (y : ℤ) :
    lookupScore soil r y = Option.none ↔
      ∀ s ∈ soil, ¬ (s.region = r ∧ s.year = y) := by
  unfold lookupScore
  rw [List.head?_eq_none_iff, List.map_eq_nil_iff, List.filter_eq_nil_iff]
  simp

theorem filter_key_singleton :
    ∀ (soil : List SoilRow), ((soil.map soilKey).Nodup) →
      ∀ {r : String} {y : ℤ} {s : SoilRow}, s ∈ soil → s.region = r → s.year = y →
        soil.filter (fun t => t.region = r ∧ t.year = y) = [s]
  | [], _, _, _, _, hs, _, _ => by simp at hs
  | a :: soil, hnd, r, y, s, hs, hr, hy => by
    rw [List.map_cons, List.nodup_cons] at hnd
    rcases List.mem_cons.mp hs with rfl | htl
    · rw [List.filter_cons_of_pos (by simp [hr, hy])]
      have : soil.filter (fun t => t.region = r ∧ t.year = y) = [] := by
        rw [List.filter_eq_nil_iff]
        intro t ht hmem
        simp only [decide_eq_true_eq] at hmem
        exact hnd.1 (by
          rw [List.mem_map]
          exact ⟨t, ht, by simp [soilKey, hmem.1, hmem.2, ← hr, ← hy]⟩)
      rw [this]
    · rw [List.filter_cons_of_neg, filter_key_singleton soil hnd.2 htl hr hy]
      simp only [decide_eq_true_eq]
      intro hmem
      exact hnd.1 (by
        rw [List.mem_map]
        exact ⟨s, htl, by simp [soilKey, hmem.1, hmem.2, hr, hy]⟩)

theorem lookupScore_unique {soil : List SoilRow} (hnd : (soil.map soilKey).Nodup)
    {r : String} {y : ℤ} {s : SoilRow} (hs : s ∈ soil) (hr : s.region = r)
    (hy : s.year = y) :
    lookupScore soil r y = some s.sustainability_score := by
  unfold lookupScore
  rw [filter_key_singleton soil hnd hs hr hy]
  rfl

theorem genCropRows_mem (rng : Rng) (r : String) (y : ℤ) (sc : ℚ) (k : Nat)
    (c : CropRow) (hc : c ∈ genCropRows rng r y sc k) :
    c.region = r ∧ c.year = y ∧ c.soil_sustainability_score = sc ∧
      c.climate_zone = regionClimate r ∧
      c.crop_health = cropHealth c.yield_kg_per_hectare := by
  unfold genCropRows at hc
  rcases List.mem_map.mp hc with ⟨p, _, rfl⟩
  exact ⟨rfl, rfl, rfl, rfl, rfl⟩

theorem genCrops_mem (rng : Rng) (soil : List SoilRow) :
    ∀ (ps : List (ℤ × String)) (k : Nat) (out : List CropRow × Nat),
      genCrops rng soil ps k = some out → ∀ c ∈ out.1,
        ∃ p ∈ ps, c.year = p.1 ∧ c.region = p.2 ∧
          lookupScore soil p.2 p.1 = some c.soil_sustainability_score ∧
          c.crop_health = cropHealth c.yield_kg_per_hectare ∧
          c.climate_zone = regionClimate c.region
  | [], k, out, hout, c, hc => by
    simp only [genCrops, Option.some.injEq] at hout
    rw [← hout] at hc
    simp at hc
  | (y, r) :: ps, k, out, hout, c, hc => by
    rw [genCrops] at hout
    cases hl : lookupScore soil r y with
    | none => rw [hl] at hout; exact absurd hout (by simp)
    | some sc =>
      rw [hl] at hout
      rcases Option.map_eq_some'.mp hout with ⟨rest, hrest, hout'⟩
      rw [← hout'] at hc
      rcases List.mem_append.mp hc with hhd | htl
      · rcases genCropRows_mem rng r y sc k c hhd with ⟨h1, h2, h3, h4, h5⟩
        exact ⟨(y, r), List.mem_cons_self _ _,
          h2, h1, by rw [h3]; exact hl, h5, by rw [h4, h1]⟩
      · rcases genCrops_mem rng soil ps (k + crops.length) rest hrest c htl with
          ⟨p, hp, hrest'⟩
        exact ⟨p, List.mem_cons_of_mem _ hp, hrest'⟩

theorem genCrops_isSome (rng : Rng) (soil : List SoilRow) :
    ∀ (ps : List (ℤ × String)) (k : Nat),
      (∀ p ∈ ps, ∃ s ∈ soil, s.region = p.2 ∧ s.year = p.1) →
      ∃ out, genCrops rng soil ps k = some out
  | [], k, _ => ⟨([], k), rfl⟩
  | (y, r) :: ps, k, h => by
    have hhd := h (y, r) (List.mem_cons_self _ _)
    cases hl : lookupScore soil r y with
    | none =>
      rcases hhd with ⟨s, hs, hr, hy⟩
      exact absurd ((lookupScore_none_iff soil r y).mp hl s hs) (by simp [hr, hy])
    | some sc =>
      rcases genCrops_isSome rng soil ps (k + crops.length)
        (fun p hp => h p (List.mem_cons_of_mem _ hp)) with ⟨rest, hrest⟩
      refine ⟨(genCropRows rng r y sc k ++ rest.1, rest.2), ?_⟩
      rw [genCrops, hl, hrest]
      rfl

theorem cropsResult_isSome (rng : Rng) : ∃ out, cropsResult rng = some out := by
  apply genCrops_isSome
  intro p hp
  have : p ∈ (soilTable rng).map soilKey := by rw [soilTable_keys]; exact hp
  rcases List.mem_map.mp this with ⟨s, hs, hkey⟩
  obtain ⟨py, pr⟩ := p
  simp only [soilKey, Prod.mk.injEq] at hkey
  exact ⟨s, hs, hkey.2, hkey.1⟩

theorem cropTable_mem (rng : Rng) (c : CropRow) (hc : c ∈ cropTable rng) :
    ∃ p ∈ yrPairs, c.year = p.1 ∧ c.region = p.2 ∧
      lookupScore (soilTable rng) p.2 p.1 = some c.soil_sustainability_score ∧
      c.crop_health = cropHealth c.yield_kg_per_hectare ∧
      c.climate_zone = regionClimate c.region := by
  rcases cropsResult_isSome rng with ⟨out, hout⟩
  have : cropTable rng = out.1 := by
    unfold cropTable
    rw [hout]
    rfl
  rw [this] at hc
  exact genCrops_mem rng (soilTable rng) yrPairs (soilResult rng).2 out hout c hc

/-!
Section: The trend projector
-/

theorem mem_uniqueAux :
    ∀ (l : List String) (seen : List String) (a : String),
      a ∈ uniqueAux seen l ↔ a ∈ l ∧ a ∉ seen
  | [], seen, a => by simp [uniqueAux]
  | x :: xs, seen, a => by
    by_cases hx : x ∈ seen
    · rw [uniqueAux, if_pos hx, mem_uniqueAux xs seen a]
      constructor
      · exact fun h => ⟨List.mem_cons_of_mem _ h.1, h.2⟩
      · rintro ⟨h1, h2⟩
        rcases List.mem_cons.mp h1 with rfl | h1'
        · exact absurd hx h2
        · exact ⟨h1', h2⟩
    · rw [uniqueAux, if_neg hx]
      constructor
      · intro h
        rcases List.mem_cons.mp h with rfl | h'
        · exact ⟨List.mem_cons_self _ _, hx⟩
        · rcases (mem_uniqueAux xs (x :: seen) a).mp h' with ⟨h1, h2⟩
          exact ⟨List.mem_cons_of_mem _ h1,
            fun hs => h2 (List.mem_cons_of_mem _ hs)⟩
      · rintro ⟨h1, h2⟩
        rcases List.mem_cons.mp h1 with rfl | h1'
        · exact List.mem_cons_self _ _
        · by_cases hax : a = x
          · subst hax; exact List.mem_cons_self _ _
          · exact List.mem_cons_of_mem _ ((mem_uniqueAux xs (x :: seen) a).mpr
              ⟨h1', by simp [hax, h2]⟩)

theorem uniqueAux_nodup :
    ∀ (l : List String) (seen : List String), (uniqueAux seen l).Nodup
  | [], seen => by simp [uniqueAux]
  | x :: xs, seen => by
    by_cases hx : x ∈ seen
    · rw [uniqueAux, if_pos hx]
      exact uniqueAux_nodup xs seen
    · rw [uniqueAux, if_neg hx, List.nodup_cons]
      refine ⟨fun hmem => ?_, uniqueAux_nodup xs (x :: seen)⟩
      exact ((mem_uniqueAux xs (x :: seen) x).mp hmem).2 (List.mem_cons_self _ _)

theorem mem_uniqueVals (l : List String) (a : String) :
    a ∈ uniqueVals l ↔ a ∈ l := by
  rw [uniqueVals, mem_uniqueAux]
  simp

theorem uniqueVals_nodup (l : List String) : (uniqueVals l).Nodup :=
  uniqueAux_nodup l []

theorem subRegion_append (df extra : List FRow) (r : String)
    (h : ∀ row ∈ extra, ¬ row.region = r) :
    subRegion (df ++ extra) r = subRegion df r := by
  unfold subRegion
  rw [List.filter_append]
  have hextra : extra.filter (fun row => row.region = r) = [] :=
    List.filter_eq_nil_iff.mpr (by simpa using h)
  rw [hextra, List.append_nil]

theorem projectRegion_append (df extra : List FRow) (r : String)
    (h : ∀ row ∈ extra, ¬ row.region = r) :
    projectRegion (df ++ extra) r = projectRegion df r := by
  unfold projectRegion
  rw [subRegion_append df extra r h]

theorem projectRegion_mem (df : List FRow) (r : String) (row : FRow)
    (hrow : row ∈ projectRegion df r) :
    ∃ lastRow, (subRegion df r).getLast? = some lastRow ∧
      row.region = r ∧ row.climate_zone = lastRow.climate_zone ∧
      row.soil_quality = Option.none ∧
      row.conc = nutrients.map (fun _ => Option.none) ∧
      ∃ p ∈ enumFrom 1 projectionYears, row.year = p.2 ∧
        row.sustainability_score = lastRow.sustainability_score +
          (p.1 : ℚ) * polyfitSlope ((subRegion df r).map (fun t => (t.year : ℚ)))
            ((subRegion df r).map (fun t => t.sustainability_score)) := by
  cases hlast : (subRegion df r).getLast? with
  | none => simp only [projectRegion, hlast] at hrow; simp at hrow
  | some lastRow =>
    simp only [projectRegion, hlast] at hrow
    rcases List.mem_map.mp hrow with ⟨p, hp, rfl⟩
    exact ⟨lastRow, rfl, rfl, rfl, rfl, rfl, p, hp, rfl, rfl⟩

theorem forecastLoop_closed (df0 : List FRow) :
    ∀ (rs : List String) (extra : List FRow), rs.Nodup →
      (∀ row ∈ extra, row.region ∉ rs) →
      forecastLoop (df0 ++ extra) rs =
        df0 ++ extra ++ rs.flatMap (fun r => projectRegion df0 r)
  | [], extra, _, _ => by simp [forecastLoop]
  | r :: rs, extra, hnd, hex => by
    rw [List.nodup_cons] at hnd
    rw [forecastLoop]
    have hproj : projectRegion (df0 ++ extra) r = projectRegion df0 r :=
      projectRegion_append df0 extra r
        (fun row hrow heq => hex row hrow (heq ▸ List.mem_cons_self _ _))
    have hex' : ∀ row ∈ extra ++ projectRegion df0 r, row.region ∉ rs := by
      intro row hrow
      rcases List.mem_append.mp hrow with h1 | h2
      · exact fun hmem => hex row h1 (List.mem_cons_of_mem _ hmem)
      · rcases projectRegion_mem df0 r row h2 with ⟨_, _, hreg, _⟩
        rw [hreg]
        exact hnd.1
    calc forecastLoop (df0 ++ extra ++ projectRegion (df0 ++ extra) r) rs
        = forecastLoop (df0 ++ (extra ++ projectRegion df0 r)) rs := by
          rw [hproj, List.append_assoc]
      _ = df0 ++ (extra ++ projectRegion df0 r) ++
            rs.flatMap (fun r' => projectRegion df0 r') :=
          forecastLoop_closed df0 rs (extra ++ projectRegion df0 r) hnd.2 hex'
      _ = df0 ++ extra ++ (r :: rs).flatMap (fun r' => projectRegion df0 r') := by
          simp [List.append_assoc]

theorem forecastDf_closed (df : List FRow) :
    forecastDf df = df ++
      (uniqueVals (df.map (fun row => row.region))).flatMap
        (fun r => projectRegion df r) := by
  have := forecastLoop_closed df
    (uniqueVals (df.map (fun row => row.region))) []
    (uniqueVals_nodup _) (by simp)
  simpa using this

theorem forecastDf_drop (df : List FRow) :
    (forecastDf df).drop df.length =
      (uniqueVals (df.map (fun row => row.region))).flatMap
        (fun r => projectRegion df r) := by
  rw [forecastDf_closed]
  exact List.drop_left df _

theorem flatMap_filter_region (df : List FRow) :
    ∀ (rs : List String), rs.Nodup → ∀ r ∈ rs,
      (rs.flatMap (fun r' => projectRegion df r')).filter
        (fun row => row.region = r) = projectRegion df r
  | [], _, r, hr => by simp at hr
  | a :: rs, hnd, r, hr => by
    rw [List.nodup_cons] at hnd
    rw [List.flatMap_cons, List.filter_append]
    rcases List.mem_cons.mp hr with rfl | hr'
    · have h1 : (projectRegion df r).filter (fun row => row.region = r) =
          projectRegion df r := by
        rw [List.filter_eq_self]
        intro row hrow
        rcases projectRegion_mem df r row hrow with ⟨_, _, hreg, _⟩
        simpa using hreg
      have h2 : (rs.flatMap (fun r' => projectRegion df r')).filter
          (fun row => row.region = r) = [] := by
        rw [List.filter_eq_nil_iff]
        intro row hrow hdec
        rcases List.mem_flatMap.mp hrow with ⟨r', hr', hrow'⟩
        rcases projectRegion_mem df r' row hrow' with ⟨_, _, hreg, _⟩
        rw [hreg] at hdec
        simp only [decide_eq_true_eq] at hdec
        exact hnd.1 (hdec ▸ hr')
      rw [h1, h2, List.append_nil]
    · have h1 : (projectRegion df a).filter (fun row => row.region = r) = [] := by
        rw [List.filter_eq_nil_iff]
        intro row hrow hdec
        rcases projectRegion_mem df a row hrow with ⟨_, _, hreg, _⟩
        rw [hreg] at hdec
        simp only [decide_eq_true_eq] at hdec
        exact hnd.1 (hdec ▸ hr')
      rw [h1, flatMap_filter_region df rs hnd.2 r hr']
      rfl

/-!
Section: Claim theorems
-/

theorem rng0_ok : rng0.Ok :=
  fun _ => ⟨by norm_num [rng0], by norm_num [rng0]⟩

/-- C2: Every soil sample generated by the pipeline has a
`sustainability_score` in `[0, 100]`, and its `soil_quality` is exactly the
deterministic step function of that score whose half-open boundaries put
any score below 60 in `Low`, scores in `[60, 80)` in `Medium` and scores
from 80 up in `High`; in particular `60.00` and `79.999` classify as
`Medium` and `80.00` as `High`. -/
theorem soil_score_bounds_and_quality (rng : Rng) (s : SoilRow)
    (hs : s ∈ soilTable rng) :
    ((0 ≤ s.sustainability_score ∧ s.sustainability_score ≤ 100) ∧
      s.soil_quality = soilQuality s.sustainability_score) ∧
    (∀ q : ℚ, (q < 60 → soilQuality q = "Low") ∧
      (60 ≤ q → q < 80 → soilQuality q = "Medium") ∧
      (80 ≤ q → soilQuality q = "High")) ∧
    soilQuality 60 = "Medium" ∧ soilQuality (79999/1000) = "Medium" ∧
    soilQuality 80 = "High" := by
  rcases genSoil_mem rng yrPairs (interactionsResult rng).2 s hs with
    ⟨hb, hq, _, _⟩
  refine ⟨⟨hb, hq⟩, ?_, ?_, ?_, ?_⟩
  · intro q
    refine ⟨fun h1 => ?_, fun h1 h2 => ?_, fun h1 => ?_⟩ <;> unfold soilQuality
    · rw [if_pos h1]
    · rw [if_neg (by linarith), if_pos h2]
    · rw [if_neg (by linarith), if_neg (by linarith)]
  · with_unfolding_all decide
  · with_unfolding_all decide
  · with_unfolding_all decide

/-- Witness for C2: the first sample of the all-zero stream's table. -/
theorem soil_score_bounds_and_quality_witness :
    ((0 ≤ s0.sustainability_score ∧ s0.sustainability_score ≤ 100) ∧
      s0.soil_quality = soilQuality s0.sustainability_score) ∧
    (∀ q : ℚ, (q < 60 → soilQuality q = "Low") ∧
      (60 ≤ q → q < 80 → soilQuality q = "Medium") ∧
      (80 ≤ q → soilQuality q = "High")) ∧
    soilQuality 60 = "Medium" ∧ soilQuality (79999/1000) = "Medium" ∧
    soilQuality 80 = "High" :=
  soil_score_bounds_and_quality rng0 s0
    (by set_option maxRecDepth 4000 in with_unfolding_all decide)

/-- C5: Every crop-yield record's `crop_health` is exactly the
deterministic step function of its `yield_kg_per_hectare` whose half-open
boundaries put yields below 3500 in `Poor`, yields in `[3500, 6000)` in
`Moderate` and yields from 6000 up in `Excellent`; in particular a yield
of exactly `3500.00` classifies as `Moderate` and exactly `6000.00` as
`Excellent`. -/
theorem crop_health_step (rng : Rng) (c : CropRow) (hc : c ∈ cropTable rng) :
    c.crop_health = cropHealth c.yield_kg_per_hectare ∧
    (∀ q : ℚ, (q < 3500 → cropHealth q = "Poor") ∧
      (3500 ≤ q → q < 6000 → cropHealth q = "Moderate") ∧
      (6000 ≤ q → cropHealth q = "Excellent")) ∧
    cropHealth 3500 = "Moderate" ∧ cropHealth 6000 = "Excellent" := by
  rcases cropTable_mem rng c hc with ⟨p, _, _, _, _, hh, _⟩
  refine ⟨hh, ?_, ?_, ?_⟩
  · intro q
    refine ⟨fun h1 => ?_, fun h1 h2 => ?_, fun h1 => ?_⟩ <;> unfold cropHealth
    · rw [if_pos h1]
    · rw [if_neg (by linarith), if_pos h2]
    · rw [if_neg (by linarith), if_neg (by linarith)]
  · with_unfolding_all decide
  · with_unfolding_all decide

/-- Witness for C5: the first record of the all-zero stream's table. -/
theorem crop_health_step_witness :
    c0.crop_health = cropHealth c0.yield_kg_per_hectare ∧
    (∀ q : ℚ, (q < 3500 → cropHealth q = "Poor") ∧
      (3500 ≤ q → q < 6000 → cropHealth q = "Moderate") ∧
      (6000 ≤ q → cropHealth q = "Excellent")) ∧
    cropHealth 3500 = "Moderate" ∧ cropHealth 6000 = "Excellent" :=
  crop_health_step rng0 c0
    (by set_option maxRecDepth 8000 in with_unfolding_all decide)

/-- C1: Every crop-yield record is joined to exactly one soil sample:
there is a unique generated soil row with the record's `(region, year)`,
and the record's `soil_sustainability_score` equals that row's
`sustainability_score` exactly. -/
theorem crop_soil_join (rng : Rng) (c : CropRow) (hc : c ∈ cropTable rng) :
    (∃! s : SoilRow, s ∈ soilTable rng ∧ s.region = c.region ∧
      s.year = c.year) ∧
    ∀ s ∈ soilTable rng, s.region = c.region → s.year = c.year →
      c.soil_sustainability_score = s.sustainability_score := by
  rcases cropTable_mem rng c hc with ⟨p, hp, hy, hr, hlook, _, _⟩
  obtain ⟨py, pr⟩ := p
  have hkey : ((py, pr) : ℤ × String) ∈ (soilTable rng).map soilKey := by
    rw [soilTable_keys]; exact hp
  rcases List.mem_map.mp hkey with ⟨s, hs, hskey⟩
  simp only [soilKey, Prod.mk.injEq] at hskey
  have hnd := soilTable_keys_nodup rng
  constructor
  · refine ⟨s, ⟨hs, by rw [hskey.2, hr], by rw [hskey.1, hy]⟩, ?_⟩
    rintro t ⟨ht, htr, hty⟩
    exact List.inj_on_of_nodup_map hnd ht hs
      (by simp [soilKey, hty, htr, hy, hr, hskey.1, hskey.2])
  · intro t ht htr hty
    have hlt : lookupScore (soilTable rng) c.region c.year =
        some t.sustainability_score := lookupScore_unique hnd ht htr hty
    have hlc : lookupScore (soilTable rng) c.region c.year =
        some c.soil_sustainability_score := by
      rw [hr, hy]; exact hlook
    rw [hlt] at hlc
    exact (Option.some.injEq _ _ ▸ hlc).symm

/-- Witness for C1: the first record of the all-zero stream's table. -/
theorem crop_soil_join_witness :
    (∃! s : SoilRow, s ∈ soilTable rng0 ∧ s.region = c0.region ∧
      s.year = c0.year) ∧
    ∀ s ∈ soilTable rng0, s.region = c0.region → s.year = c0.year →
      c0.soil_sustainability_score = s.sustainability_score :=
  crop_soil_join rng0 c0
    (by set_option maxRecDepth 8000 in with_unfolding_all decide)

/-- C6: The per-record soil lookup fails (the raised `IndexError`,
modelled as `none`) exactly when no soil row matches the requested
`(region, year)` and never silently defaults the score; under the
precondition that every requested `(year, region)` has a matching soil
row the yield generator cannot fail, and on the pipeline's shared
iteration domain it indeed never does. -/
theorem soil_lookup_checked :
    (∀ (soil : List SoilRow) (r : String) (y : ℤ),
      lookupScore soil r y = Option.none ↔
        ∀ s ∈ soil, ¬ (s.region = r ∧ s.year = y)) ∧
    (∀ (rng : Rng) (soil : List SoilRow) (ps : List (ℤ × String)) (k : Nat),
      (∀ p ∈ ps, ∃ s ∈ soil, s.region = p.2 ∧ s.year = p.1) →
      ∃ out, genCrops rng soil ps k = some out) ∧
    (∀ rng : Rng, ∃ out, cropsResult rng = some out) :=
  ⟨lookupScore_none_iff, genCrops_isSome, cropsResult_isSome⟩

/-- Witness for C6: an empty table makes the lookup fail, a matching
one-pair domain succeeds, and the all-zero stream's pipeline run
succeeds. -/
theorem soil_lookup_checked_witness :
    (lookupScore [] "North" 2015 = Option.none ↔
      ∀ s ∈ ([] : List SoilRow), ¬ (s.region = "North" ∧ s.year = 2015)) ∧
    (∃ out, genCrops rng0 [s0] [(2015, "North")] 0 = some out) ∧
    (∃ out, cropsResult rng0 = some out) :=
  ⟨soil_lookup_checked.1 [] "North" 2015,
   soil_lookup_checked.2.1 rng0 [s0] [(2015, "North")] 0
     (by with_unfolding_all decide),
   soil_lookup_checked.2.2 rng0⟩

/-- C7: The whole generation run is a pure function of the seeded
random stream: two runs over streams that agree sample-for-sample produce
identical nutrient-interaction, soil-sample and crop-yield tables. -/
theorem pipeline_deterministic (rng1 rng2 : Rng)
    (hf : ∀ k, rng1.frac k = rng2.frac k)
    (hg : ∀ k, rng1.gauss k = rng2.gauss k) :
    pipeline rng1 = pipeline rng2 := by
  have heq : rng1 = rng2 := by
    obtain ⟨f1, g1⟩ := rng1
    obtain ⟨f2, g2⟩ := rng2
    congr 1
    · exact funext hf
    · exact funext hg
  rw [heq]

/-- Witness for C7 at the all-zero stream. -/
theorem pipeline_deterministic_witness : pipeline rng0 = pipeline rng0 :=
  pipeline_deterministic rng0 rng0 (fun _ => rfl) (fun _ => rfl)

/-- C3 counterexample to the claimed weight interval `(0.1, 1.0]`:
the weight draw is `uniform(0.1, 1.0)`, which NumPy samples from the
half-open interval `[0.1, 1.0)`, so with a legitimate stream whose unit
samples are all `0` the very first edge gets weight exactly `0.10`,
violating the claimed strict lower bound. -/
theorem edge_weight_interval_cex :
    rng0.Ok ∧ ∃ e, e ∈ (interactionsResult rng0).1 ∧
      ¬ (1/10 < e.weight ∧ e.weight ≤ 1) := by
  refine ⟨rng0_ok, ⟨"N", "P", "antagonism", 1/10⟩, ?_, ?_⟩
  · with_unfolding_all decide
  · with_unfolding_all decide

/-- C3 amended: every generated nutrient edge joins two distinct
nutrients, carries a non-`"none"` effect, and has a rounded weight in the
closed interval `[0.1, 1.0]`; no ordered `(source, target)` pair is
emitted more than once. -/
theorem nutrient_edges_invariant (rng : Rng) (hok : rng.Ok) :
    (∀ e ∈ (interactionsResult rng).1,
      e.source_nutrient ≠ e.target_nutrient ∧ e.effect_type ≠ "none" ∧
        1/10 ≤ e.weight ∧ e.weight ≤ 1) ∧
    ((interactionsResult rng).1.map edgeKey).Nodup :=
  ⟨fun e he => genEdges_mem rng hok nnPairs 0 e he,
   nnPairs_nodup.sublist (genEdges_key_sublist rng nnPairs 0)⟩

/-- Witness for C3 (amended) at the all-zero stream. -/
theorem nutrient_edges_invariant_witness :
    (∀ e ∈ (interactionsResult rng0).1,
      e.source_nutrient ≠ e.target_nutrient ∧ e.effect_type ≠ "none" ∧
        1/10 ≤ e.weight ∧ e.weight ≤ 1) ∧
    ((interactionsResult rng0).1.map edgeKey).Nodup :=
  nutrient_edges_invariant rng0 rng0_ok

/-- C4: For a region with a last historical row, the projected rows
appended by the forecast loop for that region are exactly one row per
projection year at 1-indexed offset `i`, with score
`lastHistoricalScore + i * slope`, where `slope` is the first-degree
least-squares coefficient fitted on that region's historical rows only;
on the spec's scenario (scores `[70, 72, 74]` at `[2023, 2024, 2025]`)
the projections are `76` for 2026 and `78` for 2027 (and `80` for 2028). -/
theorem trend_projection_spec (df : List FRow) (r : String) (lastRow : FRow)
    (h : (subRegion df r).getLast? = some lastRow) :
    (((forecastDf df).drop df.length).filter (fun row => row.region = r) =
      (enumFrom 1 projectionYears).map (fun p =>
        ⟨r, lastRow.climate_zone, p.2, nutrients.map (fun _ => Option.none),
          lastRow.sustainability_score + (p.1 : ℚ) *
            polyfitSlope ((subRegion df r).map (fun t => (t.year : ℚ)))
              ((subRegion df r).map (fun t => t.sustainability_score)),
          Option.none⟩)) ∧
    ((forecastDf demoDf).drop demoDf.length).map
        (fun row => (row.year, row.sustainability_score)) =
      [(2026, 76), (2027, 78), (2028, 80)] := by
  constructor
  · have hne : subRegion df r ≠ [] := by
      intro hemp
      rw [hemp] at h
      simp at h
    obtain ⟨row, hrow⟩ := List.exists_mem_of_ne_nil _ hne
    have hrowf := List.mem_filter.mp hrow
    have hr : r ∈ uniqueVals (df.map (fun t => t.region)) := by
      rw [mem_uniqueVals]
      exact List.mem_map.mpr ⟨row, hrowf.1, by simpa using hrowf.2⟩
    rw [forecastDf_drop, flatMap_filter_region df _ (uniqueVals_nodup _) r hr]
    simp only [projectRegion, h]
  · with_unfolding_all decide

/-- Witness for C4 on the spec's scenario frame. -/
theorem trend_projection_spec_witness :
    (((forecastDf demoDf).drop demoDf.length).filter
        (fun row => row.region = "R") =
      (enumFrom 1 projectionYears).map (fun p =>
        ⟨"R", demoLast.climate_zone, p.2,
          nutrients.map (fun _ => Option.none),
          demoLast.sustainability_score + (p.1 : ℚ) *
            polyfitSlope ((subRegion demoDf "R").map (fun t => (t.year : ℚ)))
              ((subRegion demoDf "R").map (fun t => t.sustainability_score)),
          Option.none⟩)) ∧
    ((forecastDf demoDf).drop demoDf.length).map
        (fun row => (row.year, row.sustainability_score)) =
      [(2026, 76), (2027, 78), (2028, 80)] :=
  trend_projection_spec demoDf "R" demoLast
    (by set_option maxRecDepth 8000 in with_unfolding_all decide)

/-- C8: Every row the trend projector appends for a future year
carries the soil-sample schema with every nutrient-concentration field
explicitly marked not-applicable (`none`, one marker per nutrient of the
vocabulary, never a sampled value) and its quality tier unset. -/
theorem forecast_rows_na (df : List FRow) (row : FRow)
    (h : row ∈ (forecastDf df).drop df.length) :
    row.soil_quality = Option.none ∧
    row.conc = nutrients.map (fun _ => Option.none) ∧
    row.conc.length = nutrients.length := by
  rw [forecastDf_drop] at h
  rcases List.mem_flatMap.mp h with ⟨r, _, hrow⟩
  rcases projectRegion_mem df r row hrow with ⟨_, _, _, _, hq, hc, _⟩
  exact ⟨hq, hc, by rw [hc]; simp⟩

/-- Witness for C8: the 2026 row appended to the scenario frame. -/
theorem forecast_rows_na_witness :
    demoProj2026.soil_quality = Option.none ∧
    demoProj2026.conc = nutrients.map (fun _ => Option.none) ∧
    demoProj2026.conc.length = nutrients.length :=
  forecast_rows_na demoDf demoProj2026
    (by set_option maxRecDepth 8000 in with_unfolding_all decide)

/-- C10: Every row the trend projector appends has its `climate_zone`
copied from the last historical row of its region — not marked
not-applicable — and on the pipeline's generated soil table this equals
the region's static climate zone. -/
theorem forecast_climate_copied (df : List FRow) (row : FRow)
    (h : row ∈ (forecastDf df).drop df.length) :
    (∃ lastRow, (subRegion df row.region).getLast? = some lastRow ∧
      row.climate_zone = lastRow.climate_zone) ∧
    (∀ rng : Rng, df = (soilTable rng).map SoilRow.toF →
      row.climate_zone = regionClimate row.region) := by
  rw [forecastDf_drop] at h
  rcases List.mem_flatMap.mp h with ⟨r, _, hrow⟩
  rcases projectRegion_mem df r row hrow with
    ⟨lastRow, hlast, hreg, hclim, _, _, _⟩
  constructor
  · exact ⟨lastRow, by rw [hreg]; exact hlast, hclim⟩
  · intro rng hdf
    have hmem : lastRow ∈ subRegion df r :=
      List.mem_of_getLast?_eq_some hlast
    have hmemf := List.mem_filter.mp hmem
    rw [hdf] at hmemf
    rcases List.mem_map.mp hmemf.1 with ⟨s, hs, hsf⟩
    rcases genSoil_mem rng yrPairs (interactionsResult rng).2 s hs with
      ⟨_, _, hcz, _⟩
    have hsr : lastRow.region = s.region := by rw [← hsf]; rfl
    have hsc : lastRow.climate_zone = s.climate_zone := by rw [← hsf]; rfl
    have hlr : lastRow.region = r := by simpa using hmemf.2
    rw [hreg, hclim, hsc, hcz, ← hsr, hlr]

/-- Witness for C10: the first projected row of the forecast frame built
from the all-zero stream's soil table. -/
theorem forecast_climate_copied_witness :
    (∃ lastRow,
      (subRegion ((soilTable rng0).map SoilRow.toF)
        northProj2026.region).getLast? = some lastRow ∧
      northProj2026.climate_zone = lastRow.climate_zone) ∧
    (∀ rng : Rng,
      (soilTable rng0).map SoilRow.toF = (soilTable rng).map SoilRow.toF →
      northProj2026.climate_zone = regionClimate northProj2026.region) :=
  forecast_climate_copied ((soilTable rng0).map SoilRow.toF) northProj2026
    (by set_option maxRecDepth 40000 in with_unfolding_all decide)

/-- C9 counterexample to atomic all-or-none output commits: the three
tables are written by three separate sequential writes interleaved with
generation, so a run that dies after the first write (for instance an I/O
error while writing the soil table, phase 4 of 6) leaves exactly the
nutrient-interaction table committed — neither none nor all three. -/
theorem commit_all_or_none_cex :
    ¬ (committedAfter 2 = [] ∨
       committedAfter 2 =
        [TableFile.interactions, TableFile.soilSamples, TableFile.cropYields]) := by
  decide

/-- C9 amended: output commits are sequential in the fixed write
order interactions, soil samples, crop yields; a failure after `n` phases
leaves exactly a prefix of that order on disk (possibly a proper,
non-empty one), the untouched run has nothing committed, and a completed
run commits all three tables. -/
theorem commit_follows_write_order (n : Nat) :
    (∃ m, committedAfter n =
      [TableFile.interactions, TableFile.soilSamples,
        TableFile.cropYields].take m) ∧
    committedAfter 0 = [] ∧
    committedAfter scriptPhases.length =
      [TableFile.interactions, TableFile.soilSamples, TableFile.cropYields] := by
  refine ⟨?_, by decide, by decide⟩
  match n with
  | 0 => exact ⟨0, by decide⟩
  | 1 => exact ⟨0, by decide⟩
  | 2 => exact ⟨1, by decide⟩
  | 3 => exact ⟨1, by decide⟩
  | 4 => exact ⟨2, by decide⟩
  | 5 => exact ⟨2, by decide⟩
  | (m + 6) =>
    refine ⟨3, ?_⟩
    unfold committedAfter
    rw [List.take_of_length_le (by simp [scriptPhases])]
    decide

/-- Witness for C9 (amended): dying after four phases commits exactly the
first two tables, a prefix of the write order. -/
theorem commit_follows_write_order_witness :
    (∃ m, committedAfter 4 =
      [TableFile.interactions, TableFile.soilSamples,
        TableFile.cropYields].take m) ∧
    committedAfter 0 = [] ∧
    committedAfter scriptPhases.length =
      [TableFile.interactions, TableFile.soilSamples, TableFile.cropYields] :=
  commit_follows_write_order 4
